import Mathlib

/-!
Verification development for the slippi-wr repository (Melee replay
ingestion / live tracking / aggregation core).

The Python sources are shallowly embedded: file contents become `List Nat`
(byte values), Python dicts become insertion-ordered association lists,
fallible reads become `Option`/`Except`, damage percentages become `ℚ`,
and the stateful watcher becomes explicit state passing over a
`WatcherState` record.  IO boundaries (reading a file, parsing a finished
replay with py-slippi) are modelled by passing the value the IO call would
have produced as an explicit input.
-/

namespace SlippiWR

/-! ## Python-semantics helpers -/

/-- Lowercase a string character-wise, modelling Python `str.lower()`
(for the ASCII connect codes / paths this program compares). -/
def pyLower (s : String) : String := String.mk (s.toList.map Char.toLower)

/-- `leadsWith pre l` : `l` starts with `pre` (list version of
Python `str.startswith`). -/
def leadsWith : List Char → List Char → Bool
  | [], _ => true
  | _ :: _, [] => false
  | a :: as, b :: bs => a == b && leadsWith as bs

/-- `isSubstr needle hay` models Python's `needle in hay` on strings. -/
def isSubstrL (needle : List Char) : List Char → Bool
  | [] => needle.isEmpty
  | c :: t => leadsWith needle (c :: t) || isSubstrL needle t

def isSubstr (needle hay : String) : Bool := isSubstrL needle.toList hay.toList

/-- Python slice `data[a:b]` on a byte list (no negative indices occur in
the embedded code). -/
def pySlice (data : List Nat) (a b : Nat) : List Nat := (data.drop a).take (b - a)

/-- Python indexing `data[i]`: the byte, or `none` for an `IndexError`. -/
def pyGet (data : List Nat) (i : Nat) : Option Nat := data.get? i

/-! ## Insertion-ordered dictionary helpers (Python `dict` semantics) -/

/-- `dictSet d k v` : assignment `d[k] = v`; updates in place if the key is
present, otherwise appends at the end (Python dicts keep insertion order). -/
def dictSet {α : Type} : List (String × α) → String → α → List (String × α)
  | [], k, v => [(k, v)]
  | (k', v') :: t, k, v =>
      if k' = k then (k, v) :: t else (k', v') :: dictSet t k v

/-- `d.get(k, dflt)`. -/
def dictGetD {α : Type} (d : List (String × α)) (k : String) (dflt : α) : α :=
  (List.lookup k d).getD dflt

/-- `del d[k]`. -/
def dictDel {α : Type} : List (String × α) → String → List (String × α)
  | [], _ => []
  | (k', v') :: t, k => if k' = k then t else (k', v') :: dictDel t k

/-! ## Frame Reader — `_read_game_start_buf` (slp_parser.py, both variants)

The file content is a `List Nat` of byte values.  `Except Unit _` captures
an uncaught Python exception (`.error ()` = `IndexError`); the `try/except`
around the `open`/`read` call is outside the model because the content is
the input.  A normal return is `.ok (some buf)` / `.ok none`. -/

/-- The 3-byte records of the message-sizes payload:
`(command_tag, size_hi, size_lo)` triples, in order. -/
def msgSizesOf : List Nat → List (Nat × Nat)
  | c :: h :: l :: rest => (c, (h <<< 8) ||| l) :: msgSizesOf rest
  | _ => []

/-- Dict lookup for the message-sizes table: the last assignment to a
command tag wins, as in the Python dict built by the loop. -/
def msgSizeFor (sizesBuf : List Nat) (tag : Nat) : Option Nat :=
  List.lookup tag (msgSizesOf sizesBuf).reverse

/-- `_read_game_start_buf` / `_read_game_start_buffer`: locate and slice the
raw game-start (0x36) command buffer out of the file content. -/
def readGameStartBuf (data : List Nat) : Except Unit (Option (List Nat)) :=
  if data.length < 16 then .ok none
  else
    let b0 := data.getD 0 0
    if b0 = 0x36 ∨ b0 = 0x7b then
      let rawPos : Nat := if b0 = 0x36 then 0 else 15
      if rawPos ≥ data.length ∨ data.getD rawPos 0 ≠ 0x35 then .ok none
      else
        match pyGet data (rawPos + 1) with
        | none => .error ()   -- unguarded `data[raw_pos + 1]` raises IndexError
        | some payloadLen =>
          let sizesBuf := pySlice data (rawPos + 2) (rawPos + 2 + payloadLen - 1)
          match msgSizeFor sizesBuf 0x36 with
          | none => .ok none
          | some gameStartSize =>
            let gsOffset := rawPos + 1 + payloadLen
            let gsEnd := gsOffset + 1 + gameStartSize
            if gsEnd > data.length then .ok none
            else if data.getD gsOffset 0 ≠ 0x36 then .ok none
            else .ok (some (pySlice data gsOffset gsEnd))
    else .ok none

/-- The concrete 16-byte file content on which the Frame Reader crashes:
a `{`-container header byte, 14 filler bytes, and the 0x35 directory tag
as the final byte. -/
def c7FailingInput : List Nat :=
  [0x7b, 0, 0, 0, 0, 0, 0, 0, 0, 0, 0, 0, 0, 0, 0, 0x35]

/-! ## Field Extractor — `read_live_player_info` (buffer level)

`_decode_slp_string` (cp932 decode + NFKC normalisation of the bytes up to
the first NUL) is an external text-codec concern; it is passed in as the
`decode` function, which the claims here never depend on. -/

structure LivePlayer where
  port : Nat
  display_name : String
  connect_code : String
  character_id : Option Nat
deriving DecidableEq, Repr

/-- The `players` list accumulated by the port loop of
`read_live_player_info`, given the game-start buffer. -/
def collectPlayers (decode : List Nat → String) (buf : List Nat) : List LivePlayer :=
  (List.range 4).filterMap fun port =>
    let typeOff := 0x66 + port * 0x24
    if typeOff ≥ buf.length then none
    else if buf.getD typeOff 0 = 3 then none   -- empty slot sentinel
    else
      let charOff := 0x65 + port * 0x24
      let charId := if charOff < buf.length then some (buf.getD charOff 0) else none
      let dnStart := 0x1A5 + port * 0x1F
      let dn := if dnStart + 0x1F ≤ buf.length
                then decode (pySlice buf dnStart (dnStart + 0x1F)) else ""
      let ccStart := 0x221 + port * 0x0A
      let cc := if ccStart + 0x0A ≤ buf.length
                then decode (pySlice buf ccStart (ccStart + 0x0A)) else ""
      some ⟨port, dn, cc, charId⟩

/-- `read_live_player_info`, from the game-start buffer on: returns the
player list, or `None` when it is empty (`players if players else None`). -/
def readLivePlayerInfoBuf (decode : List Nat → String) (buf : List Nat) :
    Option (List LivePlayer) :=
  let ps := collectPlayers decode buf
  if ps.isEmpty then none else some ps

/-! ## Theorems for claims C7 and C8 -/

/-- Claim C7 (code bug): the Frame Reader is claimed total — for every file
content it should return the game-configuration buffer or unavailable
(`None`) and never throw.  On the 16-byte content consisting of the
`{`-container marker, 14 filler bytes and the directory tag `0x35` as the
last byte, the Python code executes the unguarded index `data[raw_pos + 1]`
= `data[16]` and raises `IndexError` instead; this theorem evaluates the
embedded reader at that failing input and observes the exception. -/
theorem c7_frame_reader_crashes_on_16_byte_header :
    readGameStartBuf c7FailingInput = .error () := rfl

/-- Claim C8: for every game-start buffer in which all four per-port slot
type bytes (offset `0x66 + port * 0x24` for ports 0–3) equal the empty
sentinel `3`, the Field Extractor collects zero active players (and
`read_live_player_info` reports the empty result as `None`). -/
theorem c8_all_slots_empty_zero_players
    (decode : List Nat → String) (buf : List Nat)
    (h : ∀ p, p < 4 → buf.get? (0x66 + p * 0x24) = some 3) :
    collectPlayers decode buf = [] ∧ readLivePlayerInfoBuf decode buf = none := by
  have hnone : ∀ p, p < 4 →
      (fun port =>
        let typeOff := 0x66 + port * 0x24
        if typeOff ≥ buf.length then none
        else if buf.getD typeOff 0 = 3 then none
        else
          let charOff := 0x65 + port * 0x24
          let charId := if charOff < buf.length then some (buf.getD charOff 0) else none
          let dnStart := 0x1A5 + port * 0x1F
          let dn := if dnStart + 0x1F ≤ buf.length
                    then decode (pySlice buf dnStart (dnStart + 0x1F)) else ""
          let ccStart := 0x221 + port * 0x0A
          let cc := if ccStart + 0x0A ≤ buf.length
                    then decode (pySlice buf ccStart (ccStart + 0x0A)) else ""
          some ⟨port, dn, cc, charId⟩ : Nat → Option LivePlayer) p = none := by
    intro p hp
    have hg := h p hp
    have hlt : 0x66 + p * 0x24 < buf.length := by
      rcases List.get?_eq_some.mp hg with ⟨hl, _⟩
      exact hl
    have hval : buf.getD (0x66 + p * 0x24) 0 = 3 := by
      rw [List.getD_eq_getElem?_getD, ← List.get?_eq_getElem?, hg]
      rfl
    simp only []
    rw [if_neg (by omega), if_pos hval]
  have hcol : collectPlayers decode buf = [] := by
    unfold collectPlayers
    rw [List.filterMap_eq_nil_iff]
    intro a ha
    exact hnone a (List.mem_range.mp ha)
  refine ⟨hcol, ?_⟩
  unfold readLivePlayerInfoBuf
  simp [hcol]

/-- Concrete witness for C8: a 211-byte buffer whose four slot type bytes
(offsets 102, 138, 174, 210) are all `3`. -/
def c8Buf : List Nat :=
  (List.range 211).map fun i =>
    if i = 102 ∨ i = 138 ∨ i = 174 ∨ i = 210 then 3 else 0

theorem c8_all_slots_empty_zero_players_witness :
    collectPlayers (fun _ => "") c8Buf = [] ∧
      readLivePlayerInfoBuf (fun _ => "") c8Buf = none :=
  c8_all_slots_empty_zero_players (fun _ => "") c8Buf (by decide)

/-! ## Outcome Resolver — `_determine_winner_port` (slp_parser.py)

Only the fields the resolver reads are embedded.  `fp.leader.post.stocks`
and `fp.leader.post.damage` are collapsed into a `PortFrame`; damage (a
float percentage in py-slippi) is modelled as `ℚ`, which agrees with float
comparison on the non-NaN values that occur.  A per-port frame entry of
`none` covers both `fp is None` and the (unreachable for 4-port frames)
out-of-range index, both of which end in an indeterminate result. -/

structure PortFrame where
  stocks : Nat
  damage : ℚ
deriving DecidableEq

structure PlayerStart where
  ptype : Option Nat
deriving DecidableEq

structure GameEnd where
  method : Nat
  lras_initiator : Option Nat
deriving DecidableEq

structure Frame where
  ports : List (Option PortFrame)
deriving DecidableEq

structure Game where
  players : List (Option PlayerStart)
  end_ : Option GameEnd
  frames : List Frame
deriving DecidableEq

/-- The `active_ports` list: indices of slots that are present and whose
`type` is not `None`. -/
def activePorts (players : List (Option PlayerStart)) : List Nat :=
  (players.enum.filter fun pe =>
    match pe.2 with
    | some p => p.ptype.isSome
    | none => false).map Prod.fst

/-- `_determine_winner_port`, both repository variants (their bodies are
identical). -/
def determineWinnerPort (g : Game) : Option Nat :=
  match g.end_ with
  | none => none
  | some e =>
    let ap := activePorts g.players
    if ap.length ≠ 2 then none
    else if e.method = 7 then
      -- NO_CONTEST: winner is the active port that did not quit
      match e.lras_initiator with
      | some lras =>
          if lras ∈ ap then (ap.filter fun p => p ≠ lras).head?
          else none
      | none => none
    else if e.method = 1 ∨ e.method = 2 ∨ e.method = 3 then
      -- GAME / TIME / CONCLUSIVE: compare final-frame stocks, then damage
      match g.frames.getLast? with
      | none => none
      | some lastFrame =>
        match activePorts g.players with
        | [a, b] =>
          match lastFrame.ports.getD a none, lastFrame.ports.getD b none with
          | some fa, some fb =>
            if fa.stocks > fb.stocks then some a
            else if fb.stocks > fa.stocks then some b
            else if fa.damage < fb.damage then some a
            else if fb.damage < fa.damage then some b
            else none
          | _, _ => none
        | _ => none
    else none

/-- Active port indices come from `enumerate`, hence are pairwise distinct. -/
theorem activePorts_nodup (players : List (Option PlayerStart)) :
    (activePorts players).Nodup := by
  have hsub : ((players.enum.filter fun pe =>
      match pe.2 with
      | some p => p.ptype.isSome
      | none => false).map Prod.fst).Sublist (players.enum.map Prod.fst) :=
    (List.filter_sublist _).map Prod.fst
  rw [List.enum_map_fst] at hsub
  exact hsub.nodup (List.nodup_range _)

/-- Claim C1: for a completed game with exactly two active ports, a normal
conclusion (end method 1, 2 or 3) and a final frame carrying data for both
ports, the Outcome Resolver returns the port with strictly more stocks;
on a stock tie the port with strictly lower damage; and `None`
(indeterminate) when stocks and damage are both exactly equal. -/
theorem c1_normal_conclusion_outcome
    (g : Game) (e : GameEnd) (a b : Nat) (lf : Frame) (fa fb : PortFrame)
    (hend : g.end_ = some e)
    (hm : e.method = 1 ∨ e.method = 2 ∨ e.method = 3)
    (hap : activePorts g.players = [a, b])
    (hlf : g.frames.getLast? = some lf)
    (hfa : lf.ports.getD a none = some fa)
    (hfb : lf.ports.getD b none = some fb) :
    (fb.stocks < fa.stocks → determineWinnerPort g = some a) ∧
    (fa.stocks < fb.stocks → determineWinnerPort g = some b) ∧
    (fa.stocks = fb.stocks → fa.damage < fb.damage → determineWinnerPort g = some a) ∧
    (fa.stocks = fb.stocks → fb.damage < fa.damage → determineWinnerPort g = some b) ∧
    (fa.stocks = fb.stocks → fa.damage = fb.damage → determineWinnerPort g = none) := by
  have hm7 : e.method ≠ 7 := by rcases hm with h | h | h <;> omega
  have hred : determineWinnerPort g =
      (if fa.stocks > fb.stocks then some a
       else if fb.stocks > fa.stocks then some b
       else if fa.damage < fb.damage then some a
       else if fb.damage < fa.damage then some b
       else none) := by
    unfold determineWinnerPort
    rw [hend]
    simp only [hap, hlf, hfa, hfb, List.length_cons, List.length_nil, hm7, hm,
      if_neg, if_pos]
    simp [hm7, hm]
  rw [hred]
  refine ⟨?_, ?_, ?_, ?_, ?_⟩
  · intro h; rw [if_pos h]
  · intro h; rw [if_neg (by omega), if_pos h]
  · intro hs hd
    rw [if_neg (by omega), if_neg (by omega), if_pos hd]
  · intro hs hd
    rw [if_neg (by omega), if_neg (by omega), if_neg (by exact not_lt.mpr hd.le),
      if_pos hd]
  · intro hs hd
    rw [if_neg (by omega), if_neg (by omega), if_neg (by simp [hd]),
      if_neg (by simp [hd])]

/-- Concrete game for the C1 witness: method 1, two active ports, final
frame stocks 3 vs 3 and damage 10 vs 55.2 (the lower-damage port wins). -/
def c1Game : Game :=
  { players := [some ⟨some 0⟩, some ⟨some 0⟩, none, none],
    end_ := some ⟨1, none⟩,
    frames := [⟨[some ⟨3, 10⟩, some ⟨3, (55.2 : ℚ)⟩, none, none]⟩] }

theorem c1_normal_conclusion_outcome_witness : determineWinnerPort c1Game = some 0 :=
  (c1_normal_conclusion_outcome c1Game ⟨1, none⟩ 0 1
    ⟨[some ⟨3, 10⟩, some ⟨3, (55.2 : ℚ)⟩, none, none]⟩ ⟨3, 10⟩ ⟨3, (55.2 : ℚ)⟩
    rfl (Or.inl rfl) (by decide) rfl rfl rfl).2.2.1 rfl (by norm_num)

/-- Claim C2: for a completed game with exactly two active ports ending in
no-contest (method 7), the Outcome Resolver returns the active port that is
not the `lras_initiator`; a missing initiator, or one that is not an active
port, yields `None`; and any game without exactly two active ports yields
`None` regardless of end method. -/
theorem c2_no_contest_and_non_1v1 :
    (∀ (g : Game) (e : GameEnd) (a b : Nat),
      g.end_ = some e → e.method = 7 → activePorts g.players = [a, b] →
      (e.lras_initiator = some a → determineWinnerPort g = some b) ∧
      (e.lras_initiator = some b → determineWinnerPort g = some a) ∧
      (∀ l, e.lras_initiator = some l → l ≠ a → l ≠ b →
        determineWinnerPort g = none) ∧
      (e.lras_initiator = none → determineWinnerPort g = none)) ∧
    (∀ g : Game, (activePorts g.players).length ≠ 2 →
      determineWinnerPort g = none) := by
  constructor
  · intro g e a b hend hm hap
    have hne : a ≠ b := by
      have := activePorts_nodup g.players
      rw [hap] at this
      simp at this
      exact this
    have hred : determineWinnerPort g =
        (match e.lras_initiator with
         | some lras =>
             if lras ∈ [a, b] then (([a, b].filter fun p => p ≠ lras).head?)
             else none
         | none => none) := by
      unfold determineWinnerPort
      rw [hend]
      simp only [hap, hm]
      simp
    refine ⟨?_, ?_, ?_, ?_⟩
    · intro hl
      rw [hred, hl]
      simp [List.filter, hne, Ne.symm hne]
    · intro hl
      rw [hred, hl]
      simp [List.filter, hne, Ne.symm hne]
    · intro l hl hla hlb
      rw [hred, hl]
      simp [List.filter, hla, hlb, Ne.symm hla, Ne.symm hlb]
    · intro hl
      rw [hred, hl]
  · intro g hlen
    unfold determineWinnerPort
    match hend : g.end_ with
    | none => rfl
    | some e => simp [hlen]

/-- Concrete game for the C2 witness: no-contest with port 0 quitting. -/
def c2Game : Game :=
  { players := [some ⟨some 0⟩, some ⟨some 0⟩, none, none],
    end_ := some ⟨7, some 0⟩, frames := [] }

/-- Concrete game for the C2 witness: only one active port. -/
def c2GameBad : Game :=
  { players := [some ⟨some 0⟩, none, none, none],
    end_ := some ⟨7, some 0⟩, frames := [] }

theorem c2_no_contest_and_non_1v1_witness :
    determineWinnerPort c2Game = some 1 ∧ determineWinnerPort c2GameBad = none :=
  ⟨(c2_no_contest_and_non_1v1.1 c2Game ⟨7, some 0⟩ 0 1 rfl rfl (by decide)).1 rfl,
   c2_no_contest_and_non_1v1.2 c2GameBad (by decide)⟩


/-! ## Aggregator — `_record_game` (winrate-overlay-advanced/slp_parser.py)

`char_name` / `stage_name` translate ids through tables built from the
external py-slippi enums; they enter the embedding as the `charN` /
`stageN` function parameters.  Python dicts become the insertion-ordered
association lists above. -/

theorem lookup_dictSet_self {α : Type} (d : List (String × α)) (k : String) (v : α) :
    List.lookup k (dictSet d k v) = some v := by
  induction d with
  | nil => simp [dictSet, List.lookup]
  | cons h t ih =>
    obtain ⟨k', v'⟩ := h
    by_cases hk : k' = k
    · simp [dictSet, hk, List.lookup]
    · have hbeq : (k == k') = false := by
        simp [Ne.symm hk]
      simp [dictSet, hk, List.lookup, hbeq, ih]

theorem dictGetD_dictSet_self {α : Type} (d : List (String × α)) (k : String)
    (v dflt : α) : dictGetD (dictSet d k v) k dflt = v := by
  simp [dictGetD, lookup_dictSet_self]

/-- Python `<` on strings: lexicographic comparison by code point,
written as an executable recursion (used for the `last_played` check). -/
def pyCharsLt : List Char → List Char → Bool
  | [], [] => false
  | [], _ :: _ => true
  | _ :: _, [] => false
  | a :: as, b :: bs =>
      if a.val < b.val then true
      else if b.val < a.val then false
      else pyCharsLt as bs

def pyStrLt (s t : String) : Bool := pyCharsLt s.toList t.toList

structure OppRecord where
  total : Nat × Nat
  ranked : Nat × Nat
  unranked : Nat × Nat
  sets : Nat × Nat
  stages : List (String × (Nat × Nat))
  their_chars : List (String × Nat)
  last_played : String
deriving DecidableEq

def emptyOpponentRecord : OppRecord :=
  { total := (0, 0), ranked := (0, 0), unranked := (0, 0), sets := (0, 0),
    stages := [], their_chars := [], last_played := "" }

structure OverallRecord where
  total : Nat × Nat
  ranked : Nat × Nat
  unranked : Nat × Nat
  sets : Nat × Nat
  stages : List (String × (Nat × Nat))
  my_chars : List (String × Nat)
deriving DecidableEq

def emptyOverallRecord : OverallRecord :=
  { total := (0, 0), ranked := (0, 0), unranked := (0, 0), sets := (0, 0),
    stages := [], my_chars := [] }

def bumpWL (p : Nat × Nat) (won : Bool) : Nat × Nat :=
  if won then (p.1 + 1, p.2) else (p.1, p.2 + 1)

def recordGame (charN stageN : Nat → String)
    (records : List (String × OppRecord)) (overall : OverallRecord)
    (oppName : String) (iWon : Option Bool) (gameMode : String)
    (stageId oppCharId myCharId : Nat) (timestamp : String) :
    List (String × OppRecord) × OverallRecord :=
  let records1 := if (List.lookup oppName records).isNone
                  then dictSet records oppName emptyOpponentRecord else records
  let rec0 := (List.lookup oppName records1).getD emptyOpponentRecord
  let rec1 := if timestamp ≠ "" ∧ pyStrLt rec0.last_played timestamp
              then { rec0 with last_played := timestamp } else rec0
  let sN := stageN stageId
  let oppC := charN oppCharId
  let myC := charN myCharId
  let rec2 := { rec1 with
    their_chars := dictSet rec1.their_chars oppC (dictGetD rec1.their_chars oppC 0 + 1) }
  let overall1 := { overall with
    my_chars := dictSet overall.my_chars myC (dictGetD overall.my_chars myC 0 + 1) }
  match iWon with
  | none => (dictSet records1 oppName rec2, overall1)
  | some won =>
    let rec3 := { rec2 with total := bumpWL rec2.total won }
    let overall2 := { overall1 with total := bumpWL overall1.total won }
    let recOv :=
      if gameMode = "ranked" then
        ({ rec3 with ranked := bumpWL rec3.ranked won },
         { overall2 with ranked := bumpWL overall2.ranked won })
      else if gameMode = "unranked" then
        ({ rec3 with unranked := bumpWL rec3.unranked won },
         { overall2 with unranked := bumpWL overall2.unranked won })
      else (rec3, overall2)
    let rec4 := recOv.1
    let overall3 := recOv.2
    let recStages := if (List.lookup sN rec4.stages).isNone
                     then dictSet rec4.stages sN (0, 0) else rec4.stages
    let rec5 := { rec4 with
      stages := dictSet recStages sN (bumpWL (dictGetD recStages sN (0, 0)) won) }
    let ovStages := if (List.lookup sN overall3.stages).isNone
                    then dictSet overall3.stages sN (0, 0) else overall3.stages
    let overall4 := { overall3 with
      stages := dictSet ovStages sN (bumpWL (dictGetD ovStages sN (0, 0)) won) }
    (dictSet records1 oppName rec5, overall4)

/-- Claim C6: recording a game with indeterminate outcome (`i_won = None`)
leaves the opponent record present (created as the empty record if new),
bumps the opponent-character and own-character appearance counters by
exactly one, and leaves every W/L pair — total, ranked, unranked, sets and
the whole per-stage table — of both the opponent record and the overall
record unchanged (all `[0,0]` for a new opponent, since the empty record is
all zeroes). -/
theorem c6_indeterminate_game_effect
    (charN stageN : Nat → String) (records : List (String × OppRecord))
    (overall : OverallRecord) (oppName gameMode timestamp : String)
    (stageId oppCharId myCharId : Nat) :
    ∃ rec : OppRecord,
      List.lookup oppName (recordGame charN stageN records overall oppName none
          gameMode stageId oppCharId myCharId timestamp).1 = some rec ∧
      (rec.total = ((List.lookup oppName records).getD emptyOpponentRecord).total ∧
       rec.ranked = ((List.lookup oppName records).getD emptyOpponentRecord).ranked ∧
       rec.unranked = ((List.lookup oppName records).getD emptyOpponentRecord).unranked ∧
       rec.sets = ((List.lookup oppName records).getD emptyOpponentRecord).sets ∧
       rec.stages = ((List.lookup oppName records).getD emptyOpponentRecord).stages ∧
       dictGetD rec.their_chars (charN oppCharId) 0 =
         dictGetD ((List.lookup oppName records).getD emptyOpponentRecord).their_chars
           (charN oppCharId) 0 + 1) ∧
      ((recordGame charN stageN records overall oppName none
          gameMode stageId oppCharId myCharId timestamp).2.total = overall.total ∧
       (recordGame charN stageN records overall oppName none
          gameMode stageId oppCharId myCharId timestamp).2.ranked = overall.ranked ∧
       (recordGame charN stageN records overall oppName none
          gameMode stageId oppCharId myCharId timestamp).2.unranked = overall.unranked ∧
       (recordGame charN stageN records overall oppName none
          gameMode stageId oppCharId myCharId timestamp).2.sets = overall.sets ∧
       (recordGame charN stageN records overall oppName none
          gameMode stageId oppCharId myCharId timestamp).2.stages = overall.stages ∧
       dictGetD (recordGame charN stageN records overall oppName none
          gameMode stageId oppCharId myCharId timestamp).2.my_chars (charN myCharId) 0 =
         dictGetD overall.my_chars (charN myCharId) 0 + 1) := by
  have hrec0 : (List.lookup oppName (if (List.lookup oppName records).isNone
      then dictSet records oppName emptyOpponentRecord else records)).getD
        emptyOpponentRecord
      = (List.lookup oppName records).getD emptyOpponentRecord := by
    by_cases h : (List.lookup oppName records).isNone
    · rw [if_pos h, lookup_dictSet_self]
      rw [Option.isNone_iff_eq_none] at h
      rw [h]
      rfl
    · rw [if_neg h]
  unfold recordGame
  simp only [hrec0]
  refine ⟨_, lookup_dictSet_self _ _ _, ?_, ?_⟩
  · refine ⟨?_, ?_, ?_, ?_, ?_, ?_⟩ <;>
      (first
        | (show dictGetD (dictSet _ _ _) _ _ = _
           rw [dictGetD_dictSet_self]
           split <;> rfl)
        | (split <;> rfl))
  · simp [dictGetD_dictSet_self]


/-! ## Set resolution — `_compute_sets` (slp_parser.py) and the live
variant `_check_live_set` / `_on_game_end` (main.py)

A parsed game enters batch set computation as a `GameRes`; the live
tracker's per-game record is a `LiveGame`.  The mutable triple
(`self.records`, `self.overall`, `self._live_sets`) becomes
`LiveSetState`. -/


structure GameRes where
  players : List (Nat × String)
  winner_port : Option Nat
  game_number : Nat
deriving DecidableEq

/-- The `opp_name` loop of `_compute_sets`: first pid (in dict order) whose
lowercased identity does not contain the user's code. -/
def findOpp (myCode : String) : List (Nat × String) → Option String
  | [] => none
  | (_, pid) :: t =>
      if ¬ isSubstr myCode (pyLower pid) then some pid else findOpp myCode t

/-- The `my_port` loop of `_compute_sets`: first port whose pid contains
the user's code. -/
def findMyPort (myCode : String) : List (Nat × String) → Option Nat
  | [] => none
  | (port, pid) :: t =>
      if isSubstr myCode (pyLower pid) then some port else findMyPort myCode t

/-- The per-group loop of `_compute_sets`: walk the (sorted) games,
accumulate `my_wins` / `opp_wins` / `opp_name`, skip games with no winner
(`continue`), and break as soon as either tally reaches two. -/
def setLoop (myCode : String) : List GameRes → Nat → Nat → Option String →
    (Nat × Nat) × Option String
  | [], myWins, oppWins, oppName => ((myWins, oppWins), oppName)
  | g :: gs, myWins, oppWins, oppName =>
    let oppName1 := match findOpp myCode g.players with
      | some o => some o
      | none => oppName
    match g.winner_port with
    | none => setLoop myCode gs myWins oppWins oppName1
    | some winner =>
      let counts : Nat × Nat := match findMyPort myCode g.players with
        | some myPort =>
            if winner = myPort then (myWins + 1, oppWins) else (myWins, oppWins + 1)
        | none => (myWins, oppWins)
      if counts.1 ≥ 2 ∨ counts.2 ≥ 2 then (counts, oppName1)
      else setLoop myCode gs counts.1 counts.2 oppName1

/-- Stable insert for the sort below: an element goes after existing
entries with an equal or smaller key. -/
def insertSorted (g : GameRes) : List GameRes → List GameRes
  | [] => [g]
  | h :: t => if g.game_number < h.game_number then g :: h :: t
              else h :: insertSorted g t

/-- `games.sort(key=lambda g: g["game_number"])` — a stable sort by
game number (Python's sort is stable; stable insertion sort computes the
same list). -/
def sortGames (games : List GameRes) : List GameRes :=
  games.foldl (fun acc g => insertSorted g acc) []

/-- The body of `_compute_sets` for one `match_id` group: run the loop on
the sorted games, then credit the decided side's set counter once (creating
the opponent record first if needed). -/
def computeSetsGroup (myCode : String) (games : List GameRes)
    (records : List (String × OppRecord)) (overall : OverallRecord) :
    List (String × OppRecord) × OverallRecord :=
  let r := setLoop myCode (sortGames games) 0 0 none
  match r.2 with
  | none => (records, overall)
  | some oppName =>
    let records1 := if (List.lookup oppName records).isNone
                    then dictSet records oppName emptyOpponentRecord else records
    let rec0 := (List.lookup oppName records1).getD emptyOpponentRecord
    if r.1.1 ≥ 2 then
      (dictSet records1 oppName { rec0 with sets := (rec0.sets.1 + 1, rec0.sets.2) },
       { overall with sets := (overall.sets.1 + 1, overall.sets.2) })
    else if r.1.2 ≥ 2 then
      (dictSet records1 oppName { rec0 with sets := (rec0.sets.1, rec0.sets.2 + 1) },
       { overall with sets := (overall.sets.1, overall.sets.2 + 1) })
    else (records1, overall)

/-- `_compute_sets` over all groups. -/
def computeSets (myCode : String) (setGames : List (String × List GameRes))
    (records : List (String × OppRecord)) (overall : OverallRecord) :
    List (String × OppRecord) × OverallRecord :=
  setGames.foldl (fun acc kv => computeSetsGroup myCode kv.2 acc.1 acc.2)
    (records, overall)

structure LiveGame where
  i_won : Option Bool
  game_number : Nat
deriving DecidableEq

structure LiveSetState where
  records : List (String × OppRecord)
  overall : OverallRecord
  live_sets : List (String × List LiveGame)
deriving DecidableEq

/-- `_check_live_set` (main.py): recount wins over the accumulated list for
the match id; on two wins for either side credit that side's set counters
and delete the accumulated list. -/
def checkLiveSet (st : LiveSetState) (matchId oppName : String) : LiveSetState :=
  let games := dictGetD st.live_sets matchId []
  let myWins := games.countP fun g => g.i_won == some true
  let oppWins := games.countP fun g => g.i_won == some false
  let records1 := if (List.lookup oppName st.records).isNone
                  then dictSet st.records oppName emptyOpponentRecord else st.records
  let rec0 := (List.lookup oppName records1).getD emptyOpponentRecord
  if myWins ≥ 2 then
    { records := dictSet records1 oppName
        { rec0 with sets := (rec0.sets.1 + 1, rec0.sets.2) },
      overall := { st.overall with sets := (st.overall.sets.1 + 1, st.overall.sets.2) },
      live_sets := dictDel st.live_sets matchId }
  else if oppWins ≥ 2 then
    { records := dictSet records1 oppName
        { rec0 with sets := (rec0.sets.1, rec0.sets.2 + 1) },
      overall := { st.overall with sets := (st.overall.sets.1, st.overall.sets.2 + 1) },
      live_sets := dictDel st.live_sets matchId }
  else { st with records := records1 }

/-- The set-tracking tail of `_on_game_end` (main.py, lines 1021–1028): a
finalized ranked game with a match id is appended to the per-match-id list,
then the two-wins check runs. -/
def onGameEndSets (st : LiveSetState) (oppName : String) (iWon : Option Bool)
    (gameMode matchId : String) (gameNumber : Nat) : LiveSetState :=
  if gameMode = "ranked" ∧ matchId ≠ "" then
    let games := dictGetD st.live_sets matchId []
    let st1 := { st with
      live_sets := dictSet st.live_sets matchId (games ++ [⟨iWon, gameNumber⟩]) }
    checkLiveSet st1 matchId oppName
  else st

/-- Four consecutive wins reported for the same ranked match id — the
concrete run refuting the exactly-once part of the original claim. -/
def c5Run (n : Nat) : LiveSetState :=
  (List.range n).foldl
    (fun st k => onGameEndSets st "Opp (X#1)" (some true) "ranked" "m1" (k + 1))
    ⟨[], emptyOverallRecord, []⟩


/-- The win tallies computed by the set loop do not depend on the
`opp_name` accumulator. -/
theorem setLoop_wins_on_indep (myCode : String) (gs : List GameRes) :
    ∀ mw ow onm onm',
      (setLoop myCode gs mw ow onm).1 = (setLoop myCode gs mw ow onm').1 := by
  induction gs with
  | nil => intro mw ow onm onm'; rfl
  | cons g t ih =>
    intro mw ow onm onm'
    simp only [setLoop]
    cases g.winner_port with
    | none => exact ih mw ow _ _
    | some winner =>
      cases findMyPort myCode g.players with
      | none =>
        simp only []
        split
        · rfl
        · exact ih mw ow _ _
      | some myPort =>
        simp only []
        split <;> split <;> first | rfl | exact ih _ _ _ _

/-- Claim C10: games with an indeterminate winner contribute nothing to
running set win tallies — batch `_compute_sets` computes the same tallies
with all `winner_port = None` games removed, and the live
`_check_live_set` counts only `i_won is True` / `i_won is False` games —
so a set can still be decided by later determinate games in the group. -/
theorem c10_indeterminate_games_contribute_nothing (myCode : String) :
    (∀ (gs : List GameRes) (mw ow : Nat) (onm : Option String),
      (setLoop myCode (gs.filter fun g => g.winner_port.isSome) mw ow onm).1 =
        (setLoop myCode gs mw ow onm).1) ∧
    (∀ games : List LiveGame,
      ((games.filter fun g => g.i_won.isSome).countP fun g => g.i_won == some true) =
        (games.countP fun g => g.i_won == some true) ∧
      ((games.filter fun g => g.i_won.isSome).countP fun g => g.i_won == some false) =
        (games.countP fun g => g.i_won == some false)) := by
  constructor
  · intro gs
    induction gs with
    | nil => intro mw ow onm; rfl
    | cons g t ih =>
      intro mw ow onm
      by_cases hw : g.winner_port.isSome
      · rw [List.filter_cons_of_pos (by simpa using hw)]
        obtain ⟨w, hw'⟩ := Option.isSome_iff_exists.mp hw
        simp only [setLoop, hw']
        cases findMyPort myCode g.players with
        | none =>
          simp only []
          split
          · rfl
          · exact ih mw ow _
        | some myPort =>
          simp only []
          split <;> split <;> first | rfl | exact ih _ _ _
      · rw [List.filter_cons_of_neg (by simpa using hw)]
        rw [Option.not_isSome_iff_eq_none] at hw
        simp only [setLoop, hw]
        rw [ih mw ow onm]
        exact setLoop_wins_on_indep myCode t mw ow _ _
  · intro games
    constructor <;>
    · rw [List.countP_filter]
      apply List.countP_congr
      intro g _
      cases hg : g.i_won with
      | none => simp [hg]
      | some b => simp [hg]


/-- Once the set loop has decided (a tally reached two), appending further
games to the group changes nothing. -/
theorem setLoop_decided_append (myCode : String) (gs : List GameRes) :
    ∀ (rest : List GameRes) (mw ow : Nat) (onm : Option String),
      mw < 2 → ow < 2 →
      ((setLoop myCode gs mw ow onm).1.1 ≥ 2 ∨ (setLoop myCode gs mw ow onm).1.2 ≥ 2) →
      setLoop myCode (gs ++ rest) mw ow onm = setLoop myCode gs mw ow onm := by
  induction gs with
  | nil =>
    intro rest mw ow onm hmw how hdec
    simp only [setLoop] at hdec
    omega
  | cons g t ih =>
    intro rest mw ow onm hmw how hdec
    rw [List.cons_append]
    simp only [setLoop] at hdec ⊢
    cases hwp : g.winner_port with
    | none =>
      simp only [hwp] at hdec ⊢
      exact ih rest mw ow _ hmw how hdec
    | some winner =>
      simp only [hwp] at hdec ⊢
      cases hfp : findMyPort myCode g.players with
      | none =>
        simp only [hfp] at hdec ⊢
        have hno : ¬ (mw ≥ 2 ∨ ow ≥ 2) := by omega
        simp only [if_neg hno] at hdec ⊢
        exact ih rest mw ow _ hmw how hdec
      | some myPort =>
        simp only [hfp] at hdec ⊢
        by_cases hwin : winner = myPort
        · simp only [hwin, eq_self_iff_true, if_true, ite_true] at hdec ⊢
          by_cases hbr : mw + 1 ≥ 2 ∨ ow ≥ 2
          · simp only [if_pos hbr] at hdec ⊢
          · simp only [if_neg hbr] at hdec ⊢
            exact ih rest (mw + 1) ow _ (by omega) (by omega) hdec
        · simp only [if_neg hwin] at hdec ⊢
          by_cases hbr : mw ≥ 2 ∨ ow + 1 ≥ 2
          · simp only [if_pos hbr] at hdec ⊢
          · simp only [if_neg hbr] at hdec ⊢
            exact ih rest mw (ow + 1) _ (by omega) (by omega) hdec


/-- At the moment the set loop stops with a tally at two, that tally is
exactly two and the other side is still below two: the credited side is
the side that reached two wins first. -/
theorem setLoop_first_to_two (myCode : String) (gs : List GameRes) :
    ∀ (mw ow : Nat) (onm : Option String), mw < 2 → ow < 2 →
      ((setLoop myCode gs mw ow onm).1.1 ≥ 2 →
        (setLoop myCode gs mw ow onm).1.1 = 2 ∧
          (setLoop myCode gs mw ow onm).1.2 < 2) ∧
      ((setLoop myCode gs mw ow onm).1.2 ≥ 2 →
        (setLoop myCode gs mw ow onm).1.2 = 2 ∧
          (setLoop myCode gs mw ow onm).1.1 < 2) := by
  induction gs with
  | nil =>
    intro mw ow onm hmw how
    simp only [setLoop]
    constructor <;> intro h <;> omega
  | cons g t ih =>
    intro mw ow onm hmw how
    simp only [setLoop]
    cases hwp : g.winner_port with
    | none => exact ih mw ow _ hmw how
    | some winner =>
      cases hfp : findMyPort myCode g.players with
      | none =>
        simp only []
        have hno : ¬ (mw ≥ 2 ∨ ow ≥ 2) := by omega
        simp only [if_neg hno]
        exact ih mw ow _ hmw how
      | some myPort =>
        simp only []
        by_cases hwin : winner = myPort
        · simp only [hwin, eq_self_iff_true, if_true, ite_true]
          by_cases hbr : mw + 1 ≥ 2 ∨ ow ≥ 2
          · simp only [if_pos hbr]
            constructor <;> intro h <;> constructor <;> omega
          · simp only [if_neg hbr]
            exact ih (mw + 1) ow _ (by omega) how
        · simp only [if_neg hwin]
          by_cases hbr : mw ≥ 2 ∨ ow + 1 ≥ 2
          · simp only [if_pos hbr]
            constructor <;> intro h <;> constructor <;> omega
          · simp only [if_neg hbr]
            exact ih mw (ow + 1) _ hmw (by omega)


theorem lookup_dictSet_ne {α : Type} (d : List (String × α)) (k k' : String)
    (v : α) (h : k' ≠ k) :
    List.lookup k' (dictSet d k v) = List.lookup k' d := by
  induction d with
  | nil =>
    have hbeq : (k' == k) = false := by simp [h]
    simp [dictSet, List.lookup, hbeq]
  | cons hd t ih =>
    obtain ⟨a, b⟩ := hd
    by_cases hak : a = k
    · subst hak
      have hbeq : (k' == a) = false := by simp [h]
      simp [dictSet, List.lookup, hbeq]
    · simp [dictSet, hak, List.lookup, ih]

/-- Creating the opponent record if absent (the `if opp_name not in records`
guard) never changes any stored `sets` pair, seen through default lookup. -/
theorem ensureRecord_sets (records : List (String × OppRecord)) (oppName opp : String) :
    ((List.lookup opp (if (List.lookup oppName records).isNone
        then dictSet records oppName emptyOpponentRecord else records)).getD
      emptyOpponentRecord).sets
    = ((List.lookup opp records).getD emptyOpponentRecord).sets := by
  by_cases hmem : (List.lookup oppName records).isNone
  · rw [if_pos hmem]
    by_cases ho : opp = oppName
    · subst ho
      rw [lookup_dictSet_self]
      rw [Option.isNone_iff_eq_none] at hmem
      rw [hmem]
      rfl
    · rw [lookup_dictSet_ne _ _ _ _ ho]
  · rw [if_neg hmem]

theorem computeSetsGroup_undecided (myCode : String) (games : List GameRes)
    (records : List (String × OppRecord)) (overall : OverallRecord)
    (h1 : (setLoop myCode (sortGames games) 0 0 none).1.1 < 2)
    (h2 : (setLoop myCode (sortGames games) 0 0 none).1.2 < 2) :
    (computeSetsGroup myCode games records overall).2.sets = overall.sets ∧
    ∀ opp : String,
      ((List.lookup opp (computeSetsGroup myCode games records overall).1).getD
          emptyOpponentRecord).sets =
        ((List.lookup opp records).getD emptyOpponentRecord).sets := by
  unfold computeSetsGroup
  cases hopp : (setLoop myCode (sortGames games) 0 0 none).2 with
  | none =>
    simp [hopp]
  | some oppName =>
    simp only [hopp]
    rw [if_neg (by omega), if_neg (by omega)]
    exact ⟨rfl, fun opp => ensureRecord_sets records oppName opp⟩

theorem liveSet_single_game_no_credit (st : LiveSetState) (oppName : String)
    (iWon : Option Bool) (gameMode matchId : String) (gameNumber : Nat)
    (h : List.lookup matchId st.live_sets = none) :
    (onGameEndSets st oppName iWon gameMode matchId gameNumber).overall.sets =
      st.overall.sets ∧
    ∀ opp : String,
      ((List.lookup opp
          (onGameEndSets st oppName iWon gameMode matchId gameNumber).records).getD
        emptyOpponentRecord).sets =
        ((List.lookup opp st.records).getD emptyOpponentRecord).sets := by
  unfold onGameEndSets
  by_cases hg : gameMode = "ranked" ∧ matchId ≠ ""
  · rw [if_pos hg]
    unfold checkLiveSet
    have hgames : dictGetD (dictSet st.live_sets matchId
        (dictGetD st.live_sets matchId [] ++ [⟨iWon, gameNumber⟩])) matchId
          ([] : List LiveGame) = [⟨iWon, gameNumber⟩] := by
      rw [dictGetD_dictSet_self]
      simp [dictGetD, h]
    simp only [hgames]
    have hmw : ¬ (([⟨iWon, gameNumber⟩] : List LiveGame).countP
        (fun g => g.i_won == some true) ≥ 2) := by
      have := List.countP_le_length (l := ([⟨iWon, gameNumber⟩] : List LiveGame))
        (p := fun g => g.i_won == some true)
      simp at this ⊢
      omega
    have how : ¬ (([⟨iWon, gameNumber⟩] : List LiveGame).countP
        (fun g => g.i_won == some false) ≥ 2) := by
      have := List.countP_le_length (l := ([⟨iWon, gameNumber⟩] : List LiveGame))
        (p := fun g => g.i_won == some false)
      simp at this ⊢
      omega
    rw [if_neg hmw, if_neg how]
    exact ⟨rfl, fun opp => ensureRecord_sets st.records oppName opp⟩
  · rw [if_neg hg]
    exact ⟨rfl, fun opp => rfl⟩


/-- Claim C5 (amended): in batch recomputation the set is credited exactly
once, to the side that first reaches two game wins, games after the
deciding win do not change set tallies, and undecided groups leave every
set tally unchanged.  In incremental live tracking, crediting a set
discards the accumulated games for that match id, so the single next game
under that id cannot change any set tally; however (per the
counterexample) two further wins under the same match id start a fresh
tally and can credit the same match identifier a second time. -/
theorem c5_set_credited_once_amended :
    (∀ (myCode : String) (gs rest : List GameRes) (onm : Option String),
      ((setLoop myCode gs 0 0 onm).1.1 ≥ 2 ∨ (setLoop myCode gs 0 0 onm).1.2 ≥ 2) →
      setLoop myCode (gs ++ rest) 0 0 onm = setLoop myCode gs 0 0 onm) ∧
    (∀ (myCode : String) (gs : List GameRes) (onm : Option String),
      ((setLoop myCode gs 0 0 onm).1.1 ≥ 2 →
        (setLoop myCode gs 0 0 onm).1.1 = 2 ∧ (setLoop myCode gs 0 0 onm).1.2 < 2) ∧
      ((setLoop myCode gs 0 0 onm).1.2 ≥ 2 →
        (setLoop myCode gs 0 0 onm).1.2 = 2 ∧ (setLoop myCode gs 0 0 onm).1.1 < 2)) ∧
    (∀ (myCode : String) (games : List GameRes)
        (records : List (String × OppRecord)) (overall : OverallRecord),
      (setLoop myCode (sortGames games) 0 0 none).1.1 < 2 →
      (setLoop myCode (sortGames games) 0 0 none).1.2 < 2 →
      (computeSetsGroup myCode games records overall).2.sets = overall.sets ∧
      ∀ opp : String,
        ((List.lookup opp (computeSetsGroup myCode games records overall).1).getD
            emptyOpponentRecord).sets =
          ((List.lookup opp records).getD emptyOpponentRecord).sets) ∧
    (∀ (st : LiveSetState) (oppName : String) (iWon : Option Bool)
        (gameMode matchId : String) (gameNumber : Nat),
      List.lookup matchId st.live_sets = none →
      (onGameEndSets st oppName iWon gameMode matchId gameNumber).overall.sets =
        st.overall.sets ∧
      ∀ opp : String,
        ((List.lookup opp
            (onGameEndSets st oppName iWon gameMode matchId gameNumber).records).getD
          emptyOpponentRecord).sets =
          ((List.lookup opp st.records).getD emptyOpponentRecord).sets) :=
  ⟨fun myCode gs rest onm h =>
      setLoop_decided_append myCode gs rest 0 0 onm (by omega) (by omega) h,
   fun myCode gs onm => setLoop_first_to_two myCode gs 0 0 onm (by omega) (by omega),
   fun myCode games records overall h1 h2 =>
      computeSetsGroup_undecided myCode games records overall h1 h2,
   fun st oppName iWon gameMode matchId gameNumber h =>
      liveSet_single_game_no_credit st oppName iWon gameMode matchId gameNumber h⟩

def c5GameW (n : Nat) : GameRes := ⟨[(0, "Me (X#1)"), (1, "Opp (Y#2)")], some 0, n⟩

def c5GameL (n : Nat) : GameRes := ⟨[(0, "Me (X#1)"), (1, "Opp (Y#2)")], some 1, n⟩

theorem c5_set_credited_once_amended_witness :
    setLoop "x#1" ([c5GameW 1, c5GameW 2] ++ [c5GameL 3]) 0 0 none =
      setLoop "x#1" [c5GameW 1, c5GameW 2] 0 0 none :=
  c5_set_credited_once_amended.1 "x#1" [c5GameW 1, c5GameW 2] [c5GameL 3] none
    (by decide)

/-- Claim C5 counterexample: four consecutive reported wins under one
ranked match id credit the set twice — `(1,0)` after the deciding second
game but `(2,0)` after games three and four — so the original claim's
"exactly once per match identifier" and "games after the deciding win do
not change set tallies" both fail for `_check_live_set`. -/
theorem c5_counterexample_live_double_credit :
    (c5Run 2).overall.sets = (1, 0) ∧ (c5Run 4).overall.sets = (2, 0) := by
  decide


/-! ## Live Tracker — `SlpWatcher` (watcher.py, both variants; the advanced
variant is embedded, the simple one differs only by carrying less metadata)

The watcher's mutable fields become `WatcherState`; the callbacks
`on_game_start` / `on_game_end` become emitted `WEvent`s (the free-text
`on_status` callback is presentation-only and not modelled).  The IO reads
a handler performs (`read_live_player_info`, `read_live_match_metadata`,
`os.path.getsize`, `parse_completed_game`) enter each transition as
`Option`-valued inputs. -/


/-- List-level suffix test, for `str.endswith`. -/
def sufMatch (suf s : List Char) : Bool := leadsWith suf.reverse s.reverse

/-- `path.lower().endswith(".slp")`. -/
def endsWithSlp (path : String) : Bool :=
  sufMatch ".slp".toList (pyLower path).toList

structure WatcherState where
  tracked_file : Option String
  tracked_opponent : Option String
  tracked_opp_char : Option Nat
  tracked_my_char : Option Nat
  tracked_game_mode : String
  tracked_match_id : String
  tracked_game_number : Nat
  last_size : Nat
  stable_count : Nat
deriving DecidableEq

inductive WEvent where
  | gameStart (opponent mode : String) (oppChar myChar : Option Nat)
  | gameEnd (opponent : String) (iWon : Option Bool) (mode : String)
      (stageId : Nat) (oppChar myChar : Nat) (matchId : String) (gameNumber : Nat)
deriving DecidableEq

structure MatchMeta where
  match_id : String
  game_number : Nat
  game_mode : String
deriving DecidableEq

/-- The player-classification loop of `_on_new_file`: walk the live player
list, remember the character of the slot whose connect code contains the
user's code, and build `"name (code)"` for every other slot with a code
(the last such slot wins). Returns `(opp_name, opp_char, my_char)`. -/
def scanPlayers (myCode : String) (players : List LivePlayer) :
    Option String × Option Nat × Option Nat :=
  players.foldl
    (fun (acc : Option String × Option Nat × Option Nat) p =>
      let code := p.connect_code
      if code ≠ "" ∧ isSubstr myCode (pyLower code) then
        (acc.1, acc.2.1, p.character_id)
      else if code ≠ "" ∧ ¬ isSubstr myCode (pyLower code) then
        let name := if p.display_name = "" then "Unknown" else p.display_name
        (some (name ++ " (" ++ code ++ ")"), p.character_id, acc.2.2)
      else acc)
    (none, none, none)

/-- `read_live_match_metadata` outcome applied as in `_on_new_file`:
captured metadata when the read succeeds, the unknown/empty defaults when
it returns `None`. -/
def metaFields (meta? : Option MatchMeta) : String × String × Nat :=
  match meta? with
  | some m => (m.game_mode, m.match_id, m.game_number)
  | none => ("unknown", "", 0)

/-- `SlpWatcher._on_new_file`: ignore non-`.slp` paths and unreadable
files; when an opponent is identified and the path differs from the
currently tracked file, (re)initialise tracking and emit a game-start
report. -/
def onNewFile (myCode : String) (s : WatcherState) (path : String)
    (players? : Option (List LivePlayer)) (meta? : Option MatchMeta) :
    WatcherState × List WEvent :=
  if ¬ endsWithSlp path then (s, [])
  else
    match players? with
    | none => (s, [])
    | some players =>
      let scan := scanPlayers myCode players
      match scan.1 with
      | none => (s, [])
      | some oppName =>
        if s.tracked_file = some path then (s, [])
        else
          let meta := metaFields meta?
          ({ tracked_file := some path, tracked_opponent := some oppName,
             tracked_opp_char := scan.2.1, tracked_my_char := scan.2.2,
             tracked_game_mode := meta.1, tracked_match_id := meta.2.1,
             tracked_game_number := meta.2.2, last_size := 0, stable_count := 0 },
           [WEvent.gameStart oppName meta.1 scan.2.1 scan.2.2])

/-- `_SlpHandler.on_created`: every file-creation event reaches
`_on_new_file` (after a timer delay that only sequences the call), with no
guard on the current tracking state. -/
def onCreatedEvent (myCode : String) (s : WatcherState) (path : String)
    (players? : Option (List LivePlayer)) (meta? : Option MatchMeta) :
    WatcherState × List WEvent :=
  onNewFile myCode s path players? meta?

/-- `_SlpHandler.on_modified`: modification events reach `_on_new_file`
only for `.slp` paths and only while no file is tracked. -/
def onModifiedEvent (myCode : String) (s : WatcherState) (path : String)
    (players? : Option (List LivePlayer)) (meta? : Option MatchMeta) :
    WatcherState × List WEvent :=
  if endsWithSlp path ∧ s.tracked_file = none then
    onNewFile myCode s path players? meta?
  else (s, [])

/-- The dict returned by `parse_completed_game` (the py-slippi parse of a
finished file), as consumed by `_finalize_game`. -/
structure ParseResult where
  players : List (Nat × String)
  winner_port : Option Nat
  stage : Nat
  characters : List (Nat × Nat)
  game_mode : String
  match_id : String
  game_number : Nat
deriving DecidableEq

/-- The port-classification loop of `_finalize_game`: the last pid
containing the user's code sets `my_port`, every other pid sets
`opp_port`. -/
def findPorts (myCode : String) (players : List (Nat × String)) :
    Option Nat × Option Nat :=
  players.foldl
    (fun (acc : Option Nat × Option Nat) pp =>
      if isSubstr myCode (pyLower pp.2) then (some pp.1, acc.2)
      else (acc.1, some pp.1))
    (none, none)

/-- `characters.get(port, dflt)` for the int-keyed character dict. -/
def natLookup (d : List (Nat × Nat)) (k : Nat) (dflt : Nat) : Nat :=
  (List.lookup k d).getD dflt

/-- `SlpWatcher._finalize_game`: capture the tracked fields, clear the
tracking state, and (when a file and opponent were tracked) emit exactly
one game-end report — built from the full parse when it succeeded, and
from the live-captured metadata with `i_won = None`, `stage_id = 0`
otherwise. -/
def finalizeGame (myCode : String) (s : WatcherState)
    (result? : Option ParseResult) : WatcherState × List WEvent :=
  let s' := { s with tracked_file := none, tracked_opponent := none,
                     tracked_opp_char := none, tracked_my_char := none,
                     stable_count := 0 }
  match s.tracked_file, s.tracked_opponent with
  | some _, some opponent =>
    match result? with
    | none =>
      (s', [WEvent.gameEnd opponent none s.tracked_game_mode 0
              (s.tracked_opp_char.getD 0) (s.tracked_my_char.getD 0)
              s.tracked_match_id s.tracked_game_number])
    | some r =>
      let ports := findPorts myCode r.players
      let iWon : Option Bool := match ports.1, r.winner_port with
        | some myPort, some w => some (w = myPort)
        | _, _ => none
      let oppChar := match ports.2 with
        | some p => natLookup r.characters p (s.tracked_opp_char.getD 0)
        | none => s.tracked_opp_char.getD 0
      let myChar := match ports.1 with
        | some p => natLookup r.characters p (s.tracked_my_char.getD 0)
        | none => s.tracked_my_char.getD 0
      (s', [WEvent.gameEnd opponent iWon r.game_mode r.stage
              oppChar myChar r.match_id r.game_number])
  | _, _ => (s', [])

/-- Python truthiness of `self._tracked_opponent`. -/
def oppTruthy (s : WatcherState) : Bool :=
  match s.tracked_opponent with
  | some o => o ≠ ""
  | none => false

/-- One iteration of `SlpWatcher._poll_loop` body for an observed size
(`none` = `OSError` from `os.path.getsize`): update the stable counter,
and finalize once it reaches 3 with an opponent tracked. -/
def pollStep (myCode : String) (s : WatcherState)
    (size? : Option Nat) (result? : Option ParseResult) :
    WatcherState × List WEvent :=
  match s.tracked_file with
  | none => (s, [])
  | some _ =>
    match size? with
    | none => (s, [])
    | some size =>
      let s1 := if size = s.last_size
                then { s with stable_count := s.stable_count + 1 }
                else { s with stable_count := 0, last_size := size }
      if s1.stable_count ≥ 3 ∧ oppTruthy s1 then finalizeGame myCode s1 result?
      else (s1, [])

/-- A run of successive poll iterations, accumulating emitted events. -/
def pollRun (myCode : String) (s : WatcherState)
    (polls : List (Option Nat × Option ParseResult)) :
    WatcherState × List WEvent :=
  polls.foldl
    (fun acc poll =>
      let r := pollStep myCode acc.1 poll.1 poll.2
      (r.1, acc.2 ++ r.2))
    (s, [])

/-- Number of game-end reports in an event trace. -/
def countGameEnds (evs : List WEvent) : Nat :=
  evs.countP fun e => match e with
    | WEvent.gameEnd .. => true
    | _ => false


/-- A state in the middle of tracking `Game_1.slp` (claim C3 inputs). -/
def c3TrackingState : WatcherState :=
  { tracked_file := some "Game_1.slp", tracked_opponent := some "Alice (AB#1)",
    tracked_opp_char := some 2, tracked_my_char := some 9,
    tracked_game_mode := "ranked", tracked_match_id := "mode.ranked-abc",
    tracked_game_number := 1, last_size := 500, stable_count := 1 }

/-- A second candidate file's parsed players: a valid opponent `Bob
(CD#2)` plus the user (`me#1`). -/
def c3SecondPlayers : List LivePlayer :=
  [⟨0, "Bob", "CD#2", some 5⟩, ⟨1, "Moxi", "ME#1", some 9⟩]

def c3SecondMeta : MatchMeta := ⟨"mode.ranked-def", 2, "ranked"⟩

/-- Claim C3 counterexample: while `Game_1.slp` is tracked, a create event
for the different file `Game_2.slp` carrying a valid opponent identity is
NOT ignored — the tracked path, opponent and match metadata are all
replaced and a second game-start report is emitted before the current
match finalizes, because `on_created` has no idle guard and
`_on_new_file` only compares the path against the tracked one. -/
theorem c3_counterexample_second_create_replaces_tracking :
    c3TrackingState.tracked_file = some "Game_1.slp" ∧
    (onCreatedEvent "me#1" c3TrackingState "Game_2.slp" (some c3SecondPlayers)
        (some c3SecondMeta)).1.tracked_file = some "Game_2.slp" ∧
    (onCreatedEvent "me#1" c3TrackingState "Game_2.slp" (some c3SecondPlayers)
        (some c3SecondMeta)).1.tracked_opponent = some "Bob (CD#2)" ∧
    (onCreatedEvent "me#1" c3TrackingState "Game_2.slp" (some c3SecondPlayers)
        (some c3SecondMeta)).1.tracked_match_id = "mode.ranked-def" ∧
    (onCreatedEvent "me#1" c3TrackingState "Game_2.slp" (some c3SecondPlayers)
        (some c3SecondMeta)).2 =
      [WEvent.gameStart "Bob (CD#2)" "ranked" (some 5) (some 9)] := by
  decide

/-- Claim C3 (amended): while Tracking, a candidate observed through a
modify event is ignored (the modify handler requires no tracked file), and
a re-observation of the currently tracked path is ignored with no report;
but a create event for a different `.slp` file carrying a valid opponent
identity replaces the tracked path, opponent and match metadata and emits
a second game-start report before the current match finalizes. -/
theorem c3_second_candidate_handling_amended :
    (∀ (myCode : String) (s : WatcherState) (path : String)
        (ps : Option (List LivePlayer)) (meta : Option MatchMeta),
      s.tracked_file ≠ none → onModifiedEvent myCode s path ps meta = (s, [])) ∧
    (∀ (myCode : String) (s : WatcherState) (f : String)
        (ps : Option (List LivePlayer)) (meta : Option MatchMeta),
      s.tracked_file = some f → onNewFile myCode s f ps meta = (s, [])) ∧
    (∀ (myCode : String) (s : WatcherState) (path : String)
        (players : List LivePlayer) (meta : Option MatchMeta)
        (oppName : String) (oc mc : Option Nat),
      s.tracked_file ≠ some path → endsWithSlp path = true →
      scanPlayers myCode players = (some oppName, oc, mc) →
      onCreatedEvent myCode s path (some players) meta =
        ({ tracked_file := some path, tracked_opponent := some oppName,
           tracked_opp_char := oc, tracked_my_char := mc,
           tracked_game_mode := (metaFields meta).1,
           tracked_match_id := (metaFields meta).2.1,
           tracked_game_number := (metaFields meta).2.2,
           last_size := 0, stable_count := 0 },
         [WEvent.gameStart oppName (metaFields meta).1 oc mc])) := by
  refine ⟨?_, ?_, ?_⟩
  · intro myCode s path ps meta h
    unfold onModifiedEvent
    rw [if_neg]
    intro hc
    exact h hc.2
  · intro myCode s f ps meta h
    unfold onNewFile
    by_cases hslp : endsWithSlp f
    · simp only [hslp, not_true, if_neg, Bool.not_eq_true]
      cases ps with
      | none => simp
      | some players =>
        simp only []
        cases hscan : (scanPlayers myCode players).1 with
        | none => simp [hscan]
        | some oppName => simp [hscan, h]
    · simp [hslp]
  · intro myCode s path players meta oppName oc mc hne hslp hscan
    unfold onCreatedEvent onNewFile
    simp only [hslp, not_true, hscan, if_neg hne]
    simp [hne]


theorem c3_second_candidate_handling_amended_witness :
    onCreatedEvent "me#1" c3TrackingState "Game_2.slp" (some c3SecondPlayers)
        (some c3SecondMeta) =
      ({ tracked_file := some "Game_2.slp", tracked_opponent := some "Bob (CD#2)",
         tracked_opp_char := some 5, tracked_my_char := some 9,
         tracked_game_mode := "ranked", tracked_match_id := "mode.ranked-def",
         tracked_game_number := 2, last_size := 0, stable_count := 0 },
       [WEvent.gameStart "Bob (CD#2)" "ranked" (some 5) (some 9)]) :=
  c3_second_candidate_handling_amended.2.2 "me#1" c3TrackingState "Game_2.slp"
    c3SecondPlayers (some c3SecondMeta) "Bob (CD#2)" (some 5) (some 9)
    (by decide) (by decide) (by decide)

/-- Claim C4: polling sizes `100, 100, 100, 100` from a fresh tracking
state triggers exactly one finalize (one game-end report); the stable
counter increments exactly on an unchanged size and resets to 0 on growth
(with no finalize below the threshold), finalization clears the tracked
file, and a poll with no tracked file does nothing — so no further poll
can finalize the same tracking session. -/
theorem c4_three_stable_polls_single_finalize :
    (∀ (myCode f opp : String) (oc mc : Option Nat) (gm mid : String) (gn : Nat)
        (r? : Option ParseResult), opp ≠ "" →
      countGameEnds (pollRun myCode
        ⟨some f, some opp, oc, mc, gm, mid, gn, 0, 0⟩
        [(some 100, r?), (some 100, r?), (some 100, r?), (some 100, r?)]).2 = 1) ∧
    (∀ (myCode : String) (s : WatcherState) (sz : Nat) (r? : Option ParseResult),
      s.tracked_file.isSome → sz = s.last_size → s.stable_count + 1 < 3 →
      pollStep myCode s (some sz) r? =
        ({ s with stable_count := s.stable_count + 1 }, [])) ∧
    (∀ (myCode : String) (s : WatcherState) (sz : Nat) (r? : Option ParseResult),
      s.tracked_file.isSome → sz ≠ s.last_size →
      pollStep myCode s (some sz) r? =
        ({ s with stable_count := 0, last_size := sz }, [])) ∧
    (∀ (myCode : String) (s : WatcherState) (r? : Option ParseResult),
      (finalizeGame myCode s r?).1.tracked_file = none) ∧
    (∀ (myCode : String) (s : WatcherState) (sz? : Option Nat)
        (r? : Option ParseResult),
      s.tracked_file = none → pollStep myCode s sz? r? = (s, [])) := by
  refine ⟨?_, ?_, ?_, ?_, ?_⟩
  · intro myCode f opp oc mc gm mid gn r? hopp
    rcases r? with _ | r <;>
      simp [pollRun, pollStep, finalizeGame, countGameEnds, oppTruthy, hopp]
  · intro myCode s sz r? htr hsz hlt
    obtain ⟨f, hf⟩ := Option.isSome_iff_exists.mp htr
    unfold pollStep
    rw [hf]
    dsimp only
    rw [if_pos hsz]
    rw [if_neg (fun hc =>
      absurd (show s.stable_count + 1 ≥ 3 from hc.1) (by omega))]
  · intro myCode s sz r? htr hsz
    obtain ⟨f, hf⟩ := Option.isSome_iff_exists.mp htr
    unfold pollStep
    rw [hf]
    dsimp only
    rw [if_neg hsz]
    rw [if_neg (fun hc =>
      absurd (show (0 : Nat) ≥ 3 from hc.1) (by omega))]
  · intro myCode s r?
    unfold finalizeGame
    cases s.tracked_file <;> cases s.tracked_opponent <;> cases r? <;> rfl
  · intro myCode s sz? r? h
    unfold pollStep
    rw [h]


theorem c4_three_stable_polls_single_finalize_witness :
    countGameEnds (pollRun "me#1"
      ⟨some "G.slp", some "Alice (AB#1)", none, none, "unknown", "", 0, 0, 0⟩
      [(some 100, none), (some 100, none), (some 100, none), (some 100, none)]).2
      = 1 :=
  c4_three_stable_polls_single_finalize.1 "me#1" "G.slp" "Alice (AB#1)"
    none none "unknown" "" 0 none (by decide)

/-- Claim C9: whenever `_finalize_game` runs with a tracked file and
opponent, it emits exactly one game-end report and resets the tracking
fields to the idle state — also when the completed-game parse failed, in
which case the report carries the live-captured opponent identity and
match metadata with `win_or_null = None` and `stage_id = 0`. -/
theorem c9_finalize_emits_one_report_and_resets
    (myCode : String) (s : WatcherState) (f opp : String)
    (r? : Option ParseResult)
    (hf : s.tracked_file = some f) (ho : s.tracked_opponent = some opp) :
    ((finalizeGame myCode s r?).1.tracked_file = none ∧
     (finalizeGame myCode s r?).1.tracked_opponent = none ∧
     (finalizeGame myCode s r?).1.tracked_opp_char = none ∧
     (finalizeGame myCode s r?).1.tracked_my_char = none ∧
     (finalizeGame myCode s r?).1.stable_count = 0 ∧
     (finalizeGame myCode s r?).2.length = 1) ∧
    (r? = none →
      (finalizeGame myCode s r?).2 =
        [WEvent.gameEnd opp none s.tracked_game_mode 0
          (s.tracked_opp_char.getD 0) (s.tracked_my_char.getD 0)
          s.tracked_match_id s.tracked_game_number]) := by
  unfold finalizeGame
  rw [hf, ho]
  cases r? with
  | none => exact ⟨⟨rfl, rfl, rfl, rfl, rfl, rfl⟩, fun _ => rfl⟩
  | some r => exact ⟨⟨rfl, rfl, rfl, rfl, rfl, rfl⟩, fun hh => Option.noConfusion hh⟩

/-- Concrete tracking state for the C9 witness. -/
def c9State : WatcherState :=
  { tracked_file := some "G2.slp", tracked_opponent := some "Carol (EF#3)",
    tracked_opp_char := some 20, tracked_my_char := none,
    tracked_game_mode := "unranked", tracked_match_id := "mode.unranked-xyz",
    tracked_game_number := 1, last_size := 4242, stable_count := 3 }

theorem c9_finalize_emits_one_report_and_resets_witness :
    (finalizeGame "me#1" c9State none).1.tracked_file = none ∧
    (finalizeGame "me#1" c9State none).2 =
      [WEvent.gameEnd "Carol (EF#3)" none "unranked" 0 20 0
        "mode.unranked-xyz" 1] :=
  ⟨(c9_finalize_emits_one_report_and_resets "me#1" c9State "G2.slp"
      "Carol (EF#3)" none rfl rfl).1.1,
   (c9_finalize_emits_one_report_and_resets "me#1" c9State "G2.slp"
      "Carol (EF#3)" none rfl rfl).2 rfl⟩


end SlippiWR
